import Mathlib

/-!
Verification of the PAM conversation bridge (`src/conv.rs`).

The development shallowly embeds the bridge function `converse`, the
`Conversation` trait and the `PasswordConv` handler. C text is modelled as a
list of bytes (`List Nat`) without the trailing NUL terminator; a byte value
`0` inside such a list models an embedded NUL. The foreign allocator is
instrumented: the model counts the blocks the bridge obtains (`calloc` of the
response array, one `strdup` per stored prompt answer) and the blocks it frees
before returning, so allocation accounting is provable.
-/

namespace Pam

/-- Modelled from the spec: the four message style kinds of the host protocol
(`PamMessageStyle` is declared outside `src/`; the integer decoding
`PamMessageStyle::from` is likewise external, so styles are carried here
already decoded). -/
inductive PamMessageStyle : Type
  | Prompt_Echo_On : PamMessageStyle
  | Prompt_Echo_Off : PamMessageStyle
  | Text_Info : PamMessageStyle
  | Error_Msg : PamMessageStyle
deriving DecidableEq

/-- Modelled from the spec: the status codes the bridge itself emits
(`PamReturnCode` is declared outside `src/`; only the three codes the bridge
produces are needed). -/
inductive PamReturnCode : Type
  | Success : PamReturnCode
  | Buf_Err : PamReturnCode
  | Conv_Err : PamReturnCode
deriving DecidableEq

/-- Modelled from the spec: an incoming message, read-only for the bridge:
a style and a NUL-terminated text (modelled as the byte list before the
terminator). -/
structure PamMessage : Type where
  msg_style : PamMessageStyle
  msg : List Nat
deriving DecidableEq

/-- Modelled from the spec: one response slot; `resp` is the text pointer,
`none` models a null pointer (the zero-initialised state from `calloc`). -/
structure PamResponse : Type where
  resp : Option (List Nat)
deriving DecidableEq

/-- The `Conversation` trait: a handler with state type `σ`. The two prompt
operations return the possibly updated state and `some answer` for
`Ok(CString)` or `none` for `Err(())`; `info` and `error` only update the
state. -/
structure Conversation (σ : Type) : Type where
  prompt_echo : σ → List Nat → σ × Option (List Nat)
  prompt_blind : σ → List Nat → σ × Option (List Nat)
  info : σ → List Nat → σ
  error : σ → List Nat → σ

/-- One handler invocation, recorded with the message text it was given; the
trace of these calls makes "which messages reached the handler" provable. -/
inductive HandlerCall : Type
  | echo : List Nat → HandlerCall
  | blind : List Nat → HandlerCall
  | info : List Nat → HandlerCall
  | err : List Nat → HandlerCall
deriving DecidableEq

/-- Outcome of the `for` loop of `converse`: the aggregated `result` code, the
final contents of the response array (full length, untouched slots still
zero-initialised), the handler state, the trace of handler calls in order, and
how many `strdup` blocks were allocated into slots. -/
structure LoopOut (σ : Type) : Type where
  result : PamReturnCode
  slots : List PamResponse
  state : σ
  calls : List HandlerCall
  strdups : Nat
deriving DecidableEq

/-- The `for i in 0..num_msg` loop of `converse` (src/conv.rs lines 98-134),
one message at a time. A successful prompt writes `strdup` of the handler's
answer into slot `i`; a failed prompt or an `Error_Msg` sets `Conv_Err`, and
the `if result != Success break` at the end of the body then leaves all later
slots at their zero-initialised `none` and dispatches no later message. -/
def converseLoop (conv : Conversation σ) : σ → List PamMessage → LoopOut σ
  | s, [] =>
    { result := PamReturnCode.Success, slots := [], state := s, calls := [],
      strdups := 0 }
  | s, m :: rest =>
    match m.msg_style with
    | PamMessageStyle.Prompt_Echo_On =>
      match conv.prompt_echo s m.msg with
      | (s2, some ans) =>
        let o := converseLoop conv s2 rest
        { result := o.result, slots := { resp := some ans } :: o.slots,
          state := o.state, calls := HandlerCall.echo m.msg :: o.calls,
          strdups := o.strdups + 1 }
      | (s2, none) =>
        { result := PamReturnCode.Conv_Err,
          slots := { resp := none } :: rest.map (fun _ => { resp := none }),
          state := s2, calls := [HandlerCall.echo m.msg], strdups := 0 }
    | PamMessageStyle.Prompt_Echo_Off =>
      match conv.prompt_blind s m.msg with
      | (s2, some ans) =>
        let o := converseLoop conv s2 rest
        { result := o.result, slots := { resp := some ans } :: o.slots,
          state := o.state, calls := HandlerCall.blind m.msg :: o.calls,
          strdups := o.strdups + 1 }
      | (s2, none) =>
        { result := PamReturnCode.Conv_Err,
          slots := { resp := none } :: rest.map (fun _ => { resp := none }),
          state := s2, calls := [HandlerCall.blind m.msg], strdups := 0 }
    | PamMessageStyle.Text_Info =>
      let o := converseLoop conv (conv.info s m.msg) rest
      { result := o.result, slots := { resp := none } :: o.slots,
        state := o.state, calls := HandlerCall.info m.msg :: o.calls,
        strdups := o.strdups }
    | PamMessageStyle.Error_Msg =>
      { result := PamReturnCode.Conv_Err,
        slots := { resp := none } :: rest.map (fun _ => { resp := none }),
        state := conv.error s m.msg, calls := [HandlerCall.err m.msg],
        strdups := 0 }

/-- Everything observable when `converse` returns: the status code, what was
written through `out_resp` (`none` models an untouched output pointer), the
handler state, the message array as the caller sees it afterwards, the
handler-call trace, and the allocator instrumentation (`allocated` counts the
`calloc` block plus every `strdup` block; `freed` counts the blocks freed by
the bridge before returning). -/
structure ConverseResult (σ : Type) : Type where
  retcode : PamReturnCode
  out_resp : Option (List PamResponse)
  handlerState : σ
  messages : List PamMessage
  calls : List HandlerCall
  allocated : Nat
  freed : Nat
deriving DecidableEq

/-- The bridge `converse` (src/conv.rs lines 83-143). `callocOk` models
whether the foreign `calloc` at entry succeeds: on failure the bridge returns
`Buf_Err` at once (no handler call, output untouched, nothing allocated).
Otherwise it runs the loop; on a non-`Success` result it executes
`free(resp)` — freeing exactly one block, the array itself — and leaves the
output pointer untouched; on `Success` it publishes the array through the
output pointer and frees nothing. The incoming messages are only read, so
they are returned unchanged in `messages`. -/
def converse (conv : Conversation σ) (s0 : σ) (msgs : List PamMessage)
    (callocOk : Bool) : ConverseResult σ :=
  if callocOk then
    let o := converseLoop conv s0 msgs
    if o.result = PamReturnCode.Success then
      { retcode := o.result, out_resp := some o.slots, handlerState := o.state,
        messages := msgs, calls := o.calls, allocated := 1 + o.strdups,
        freed := 0 }
    else
      { retcode := o.result, out_resp := none, handlerState := o.state,
        messages := msgs, calls := o.calls, allocated := 1 + o.strdups,
        freed := 1 }
  else
    { retcode := PamReturnCode.Buf_Err, out_resp := none, handlerState := s0,
      messages := msgs, calls := [], allocated := 0, freed := 0 }

/-- Number of bridge-allocated blocks whose ownership was transferred to the
host: the array block plus one block per non-null slot text, when the array
was published; nothing otherwise. -/
def publishedBlocks (r : ConverseResult σ) : Nat :=
  match r.out_resp with
  | some slots => 1 + (slots.filter (fun sl => sl.resp.isSome)).length
  | none => 0

/-- Blocks the bridge allocated that are neither freed by it nor handed to the
host: a nonzero value is a memory leak. -/
def unaccountedBlocks (r : ConverseResult σ) : Nat :=
  r.allocated - (r.freed + publishedBlocks r)

/-- `CString::new` on a byte string: fails exactly when the bytes contain an
embedded NUL, otherwise carries the bytes through. -/
def cstringNew (s : List Nat) : Option (List Nat) :=
  if s.contains 0 then none else some s

/-- The `PasswordConv` handler state: the stored login and password
(Rust `String`s, modelled as byte lists). -/
structure PasswordConv : Type where
  login : List Nat
  passwd : List Nat
deriving DecidableEq

/-- `PasswordConv::new`: both credentials start as the empty string. -/
def PasswordConv.new : PasswordConv :=
  { login := [], passwd := [] }

/-- `PasswordConv::set_credentials`. -/
def PasswordConv.set_credentials (_p : PasswordConv) (l pw : List Nat) :
    PasswordConv :=
  { login := l, passwd := pw }

/-- The `Conversation` impl for `PasswordConv`: `prompt_echo` answers with
`CString::new(login)`, `prompt_blind` with `CString::new(passwd)`, both
ignoring the question; `info` does nothing; `error` only prints to stderr, a
no-op on the state. The `p` argument is unused by `set_credentials`-free
claims but threads the `&mut self` receiver. -/
def PasswordConv.conversation : Conversation PasswordConv where
  prompt_echo := fun p _ => (p, cstringNew p.login)
  prompt_blind := fun p _ => (p, cstringNew p.passwd)
  info := fun p _ => p
  error := fun p _ => p

/-- A handler that declines every prompt (`prompt_echo` and `prompt_blind`
always return `Err(())`), used to exercise the failure paths. -/
def declineConv : Conversation Unit where
  prompt_echo := fun s _ => (s, none)
  prompt_blind := fun s _ => (s, none)
  info := fun s _ => s
  error := fun s _ => s

/-- Recognises the `error`-notification entries of a handler-call trace. -/
def isErrorCall : HandlerCall → Bool
  | HandlerCall.err _ => true
  | _ => false

/-- Spec-side description of the published response array ("one slot per
incoming message; a prompting slot carries a copy of the text the handler
returned for that message, threading the handler state in message order;
info and error slots stay null"). Used to compare the bridge's output with
the specified contents. -/
def specSlots (conv : Conversation σ) : σ → List PamMessage → List PamResponse
  | _, [] => []
  | s, m :: rest =>
    match m.msg_style with
    | PamMessageStyle.Prompt_Echo_On =>
      { resp := (conv.prompt_echo s m.msg).2 } ::
        specSlots conv (conv.prompt_echo s m.msg).1 rest
    | PamMessageStyle.Prompt_Echo_Off =>
      { resp := (conv.prompt_blind s m.msg).2 } ::
        specSlots conv (conv.prompt_blind s m.msg).1 rest
    | PamMessageStyle.Text_Info =>
      { resp := none } :: specSlots conv (conv.info s m.msg) rest
    | PamMessageStyle.Error_Msg =>
      { resp := none } :: specSlots conv (conv.error s m.msg) rest

/-- The hypothesis of the success-path claim, as a run predicate: every
dispatched handler prompt call succeeds and no `Error_Msg` message occurs
(so every message gets dispatched). -/
def cleanRun (conv : Conversation σ) : σ → List PamMessage → Bool
  | _, [] => true
  | s, m :: rest =>
    match m.msg_style with
    | PamMessageStyle.Prompt_Echo_On =>
      match conv.prompt_echo s m.msg with
      | (s2, some _) => cleanRun conv s2 rest
      | (_, none) => false
    | PamMessageStyle.Prompt_Echo_Off =>
      match conv.prompt_blind s m.msg with
      | (s2, some _) => cleanRun conv s2 rest
      | (_, none) => false
    | PamMessageStyle.Text_Info => cleanRun conv (conv.info s m.msg) rest
    | PamMessageStyle.Error_Msg => false

/-- The loop always produces one slot per incoming message. -/
theorem converseLoop_slots_length (conv : Conversation σ) (s : σ)
    (msgs : List PamMessage) :
    (converseLoop conv s msgs).slots.length = msgs.length := by
  induction msgs generalizing s with
  | nil => rfl
  | cons m rest ih =>
    cases hst : m.msg_style with
    | Prompt_Echo_On =>
      rcases hc : conv.prompt_echo s m.msg with ⟨s2, r⟩
      cases r <;> simp [converseLoop, hst, hc, ih]
    | Prompt_Echo_Off =>
      rcases hc : conv.prompt_blind s m.msg with ⟨s2, r⟩
      cases r <;> simp [converseLoop, hst, hc, ih]
    | Text_Info => simp [converseLoop, hst, ih]
    | Error_Msg => simp [converseLoop, hst]

/-- Running the loop on `pre ++ rest` when the loop on `pre` alone ends in
`Success` is running it on `pre` and continuing on `rest` from the reached
state: slots, calls and strdup counts concatenate. -/
theorem converseLoop_append (conv : Conversation σ) (s : σ)
    (pre rest : List PamMessage)
    (h : (converseLoop conv s pre).result = PamReturnCode.Success) :
    converseLoop conv s (pre ++ rest) =
      { result := (converseLoop conv (converseLoop conv s pre).state
            rest).result,
        slots := (converseLoop conv s pre).slots ++
          (converseLoop conv (converseLoop conv s pre).state rest).slots,
        state := (converseLoop conv (converseLoop conv s pre).state
            rest).state,
        calls := (converseLoop conv s pre).calls ++
          (converseLoop conv (converseLoop conv s pre).state rest).calls,
        strdups := (converseLoop conv s pre).strdups +
          (converseLoop conv (converseLoop conv s pre).state
            rest).strdups } := by
  induction pre generalizing s with
  | nil => simp [converseLoop]
  | cons m pre2 ih =>
    cases hst : m.msg_style with
    | Prompt_Echo_On =>
      rcases hc : conv.prompt_echo s m.msg with ⟨s2, r⟩
      cases r with
      | none => simp [converseLoop, hst, hc] at h
      | some ans =>
        have h2 : (converseLoop conv s2 pre2).result =
            PamReturnCode.Success := by
          simpa [converseLoop, hst, hc] using h
        simp [converseLoop, hst, hc, ih s2 h2, Nat.add_assoc,
          Nat.add_right_comm, Nat.add_comm]
    | Prompt_Echo_Off =>
      rcases hc : conv.prompt_blind s m.msg with ⟨s2, r⟩
      cases r with
      | none => simp [converseLoop, hst, hc] at h
      | some ans =>
        have h2 : (converseLoop conv s2 pre2).result =
            PamReturnCode.Success := by
          simpa [converseLoop, hst, hc] using h
        simp [converseLoop, hst, hc, ih s2 h2, Nat.add_assoc,
          Nat.add_right_comm, Nat.add_comm]
    | Text_Info =>
      have h2 : (converseLoop conv (conv.info s m.msg) pre2).result =
          PamReturnCode.Success := by
        simpa [converseLoop, hst] using h
      simp [converseLoop, hst, ih (conv.info s m.msg) h2]
    | Error_Msg => simp [converseLoop, hst] at h

/-- A loop run that ends in `Success` has made no `error` notification (an
`Error_Msg` message would have forced `Conv_Err`). -/
theorem converseLoop_success_no_error_calls (conv : Conversation σ) (s : σ)
    (msgs : List PamMessage)
    (h : (converseLoop conv s msgs).result = PamReturnCode.Success) :
    (converseLoop conv s msgs).calls.filter isErrorCall = [] := by
  induction msgs generalizing s with
  | nil => rfl
  | cons m rest ih =>
    cases hst : m.msg_style with
    | Prompt_Echo_On =>
      rcases hc : conv.prompt_echo s m.msg with ⟨s2, r⟩
      cases r with
      | none => simp [converseLoop, hst, hc] at h
      | some ans =>
        have h2 : (converseLoop conv s2 rest).result =
            PamReturnCode.Success := by
          simpa [converseLoop, hst, hc] using h
        simp [converseLoop, hst, hc, isErrorCall, ih s2 h2]
    | Prompt_Echo_Off =>
      rcases hc : conv.prompt_blind s m.msg with ⟨s2, r⟩
      cases r with
      | none => simp [converseLoop, hst, hc] at h
      | some ans =>
        have h2 : (converseLoop conv s2 rest).result =
            PamReturnCode.Success := by
          simpa [converseLoop, hst, hc] using h
        simp [converseLoop, hst, hc, isErrorCall, ih s2 h2]
    | Text_Info =>
      have h2 : (converseLoop conv (conv.info s m.msg) rest).result =
          PamReturnCode.Success := by
        simpa [converseLoop, hst] using h
      simp [converseLoop, hst, isErrorCall, ih (conv.info s m.msg) h2]
    | Error_Msg => simp [converseLoop, hst] at h

/-- Under `cleanRun` the loop ends in `Success` and fills the slots exactly
as the spec describes them. -/
theorem converseLoop_clean (conv : Conversation σ) (s : σ)
    (msgs : List PamMessage) (h : cleanRun conv s msgs = true) :
    (converseLoop conv s msgs).result = PamReturnCode.Success ∧
    (converseLoop conv s msgs).slots = specSlots conv s msgs := by
  induction msgs generalizing s with
  | nil => exact ⟨rfl, rfl⟩
  | cons m rest ih =>
    cases hst : m.msg_style with
    | Prompt_Echo_On =>
      rcases hc : conv.prompt_echo s m.msg with ⟨s2, r⟩
      cases r with
      | none => simp [cleanRun, hst, hc] at h
      | some ans =>
        have h2 : cleanRun conv s2 rest = true := by
          simpa [cleanRun, hst, hc] using h
        obtain ⟨ih1, ih2⟩ := ih s2 h2
        simp [converseLoop, specSlots, hst, hc, ih1, ih2]
    | Prompt_Echo_Off =>
      rcases hc : conv.prompt_blind s m.msg with ⟨s2, r⟩
      cases r with
      | none => simp [cleanRun, hst, hc] at h
      | some ans =>
        have h2 : cleanRun conv s2 rest = true := by
          simpa [cleanRun, hst, hc] using h
        obtain ⟨ih1, ih2⟩ := ih s2 h2
        simp [converseLoop, specSlots, hst, hc, ih1, ih2]
    | Text_Info =>
      have h2 : cleanRun conv (conv.info s m.msg) rest = true := by
        simpa [cleanRun, hst] using h
      obtain ⟨ih1, ih2⟩ := ih (conv.info s m.msg) h2
      simp [converseLoop, specSlots, hst, ih1, ih2]
    | Error_Msg => simp [cleanRun, hst] at h

/-- The spec-side slot list has one slot per message. -/
theorem specSlots_length (conv : Conversation σ) (s : σ)
    (msgs : List PamMessage) :
    (specSlots conv s msgs).length = msgs.length := by
  induction msgs generalizing s with
  | nil => rfl
  | cons m rest ih =>
    cases hst : m.msg_style <;> simp [specSlots, hst, ih]

/-- C1: on the error path `converse` runs `free(resp)` on the array block
only; the `strdup` block written into slot 0 by the successful first prompt is
neither freed nor published. At the concrete input (handler `PasswordConv`
with login `"a"`, messages `[Prompt_Echo_On "l", Error_Msg "e"]`) the bridge
returns `Conv_Err`, leaves the output pointer untouched, and leaves exactly
one allocated block unaccounted for — a leak, contradicting the claim that
every allocation is published or freed. -/
theorem converse_error_path_leaks_slot_text :
    (converse PasswordConv.conversation { login := [97], passwd := [98] }
        [{ msg_style := PamMessageStyle.Prompt_Echo_On, msg := [108] },
         { msg_style := PamMessageStyle.Error_Msg, msg := [101] }]
        true).retcode = PamReturnCode.Conv_Err ∧
    (converse PasswordConv.conversation { login := [97], passwd := [98] }
        [{ msg_style := PamMessageStyle.Prompt_Echo_On, msg := [108] },
         { msg_style := PamMessageStyle.Error_Msg, msg := [101] }]
        true).out_resp = none ∧
    unaccountedBlocks
      (converse PasswordConv.conversation { login := [97], passwd := [98] }
        [{ msg_style := PamMessageStyle.Prompt_Echo_On, msg := [108] },
         { msg_style := PamMessageStyle.Error_Msg, msg := [101] }]
        true) = 1 := by
  decide

/-- C5: with zero messages (and the allocator granting the zero-length
`calloc`), `converse` returns `Success`, publishes the zero-length response
array through the output pointer, performs no handler call and frees
nothing. -/
theorem converse_empty_success (conv : Conversation σ) (s : σ) :
    converse conv s [] true =
      { retcode := PamReturnCode.Success, out_resp := some [],
        handlerState := s, messages := [], calls := [], allocated := 1,
        freed := 0 } := by
  rfl

/-- C6: when the allocation of the response array fails, `converse` returns
`Buf_Err` immediately: the output pointer is untouched, no handler operation
is invoked, the handler state is unchanged and nothing was allocated or
freed. -/
theorem converse_alloc_failure (conv : Conversation σ) (s : σ)
    (msgs : List PamMessage) :
    converse conv s msgs false =
      { retcode := PamReturnCode.Buf_Err, out_resp := none, handlerState := s,
        messages := msgs, calls := [], allocated := 0, freed := 0 } := by
  rfl

/-- C7: the bridge never mutates an incoming message: whatever the handler,
initial state, message array and allocation outcome, the message array (every
style and every text) is unchanged when `converse` returns. -/
theorem converse_preserves_messages (conv : Conversation σ) (s : σ)
    (msgs : List PamMessage) (callocOk : Bool) :
    (converse conv s msgs callocOk).messages = msgs := by
  unfold converse
  cases callocOk with
  | false => rfl
  | true =>
    by_cases h : (converseLoop conv s msgs).result = PamReturnCode.Success <;>
      simp [h]

/-- C8: `PasswordConv` answers `prompt_echo` with the stored login and
`prompt_blind` with the stored password, each failing exactly when the stored
text contains an embedded NUL byte (`CString::new` rejects it); `info` leaves
the handler state unchanged. -/
theorem passwordConv_fixed_credentials (p : PasswordConv) (m : List Nat) :
    PasswordConv.conversation.prompt_echo p m =
      (p, if p.login.contains 0 then none else some p.login) ∧
    PasswordConv.conversation.prompt_blind p m =
      (p, if p.passwd.contains 0 then none else some p.passwd) ∧
    PasswordConv.conversation.info p m = p := by
  refine ⟨?_, ?_, rfl⟩ <;>
    simp [PasswordConv.conversation, cstringNew]

/-- C9: `PasswordConv`'s prompt answers are independent of the question text:
for any stored credentials and any two messages, `prompt_echo` gives the same
result on both, and so does `prompt_blind`. -/
theorem passwordConv_prompt_independent_of_question (p : PasswordConv)
    (m1 m2 : List Nat) :
    PasswordConv.conversation.prompt_echo p m1 =
      PasswordConv.conversation.prompt_echo p m2 ∧
    PasswordConv.conversation.prompt_blind p m1 =
      PasswordConv.conversation.prompt_blind p m2 :=
  ⟨rfl, rfl⟩

/-- C2: when the handler first fails on the k-th message — the loop on the
first k messages ends in `Success` and message k is a prompt the handler
declines — `converse` returns `Conv_Err`, leaves the output pointer
untouched, and the handler-call trace is exactly the trace of the first k
messages followed by the one failing prompt call: no message after index k
reaches the handler. -/
theorem converse_prompt_failure_stops (conv : Conversation σ) (s : σ)
    (pre : List PamMessage) (m : PamMessage) (post : List PamMessage)
    (hpre : (converseLoop conv s pre).result = PamReturnCode.Success)
    (hfail :
      (m.msg_style = PamMessageStyle.Prompt_Echo_On ∧
        (conv.prompt_echo (converseLoop conv s pre).state m.msg).2 = none) ∨
      (m.msg_style = PamMessageStyle.Prompt_Echo_Off ∧
        (conv.prompt_blind (converseLoop conv s pre).state m.msg).2 = none)) :
    (converse conv s (pre ++ m :: post) true).retcode =
      PamReturnCode.Conv_Err ∧
    (converse conv s (pre ++ m :: post) true).out_resp = none ∧
    (converse conv s (pre ++ m :: post) true).calls =
      (converseLoop conv s pre).calls ++
        [if m.msg_style = PamMessageStyle.Prompt_Echo_On
          then HandlerCall.echo m.msg else HandlerCall.blind m.msg] := by
  rcases hfail with ⟨hst, hc⟩ | ⟨hst, hc⟩
  · rcases hp : conv.prompt_echo (converseLoop conv s pre).state m.msg
      with ⟨s2, r⟩
    rw [hp] at hc
    simp only at hc
    subst hc
    have hstep :
        converseLoop conv (converseLoop conv s pre).state (m :: post) =
          { result := PamReturnCode.Conv_Err,
            slots := { resp := none } ::
              post.map (fun _ => ({ resp := none } : PamResponse)),
            state := s2, calls := [HandlerCall.echo m.msg],
            strdups := 0 } := by
      simp [converseLoop, hst, hp]
    have happ := converseLoop_append conv s pre (m :: post) hpre
    rw [hstep] at happ
    refine ⟨?_, ?_, ?_⟩ <;> simp [converse, happ, hst]
  · rcases hp : conv.prompt_blind (converseLoop conv s pre).state m.msg
      with ⟨s2, r⟩
    rw [hp] at hc
    simp only at hc
    subst hc
    have hstep :
        converseLoop conv (converseLoop conv s pre).state (m :: post) =
          { result := PamReturnCode.Conv_Err,
            slots := { resp := none } ::
              post.map (fun _ => ({ resp := none } : PamResponse)),
            state := s2, calls := [HandlerCall.blind m.msg],
            strdups := 0 } := by
      simp [converseLoop, hst, hp]
    have happ := converseLoop_append conv s pre (m :: post) hpre
    rw [hstep] at happ
    refine ⟨?_, ?_, ?_⟩ <;> simp [converse, happ, hst]

/-- Witness for the prompt-failure claim: the declining handler, no messages
before the failing `Prompt_Echo_On` prompt, one `Text_Info` message after it
that never reaches the handler. -/
theorem converse_prompt_failure_stops_witness :
    (converseLoop declineConv () []).result = PamReturnCode.Success ∧
    (((PamMessage.mk PamMessageStyle.Prompt_Echo_On [113]).msg_style =
          PamMessageStyle.Prompt_Echo_On ∧
        (declineConv.prompt_echo (converseLoop declineConv () []).state
          [113]).2 = none) ∨
      ((PamMessage.mk PamMessageStyle.Prompt_Echo_On [113]).msg_style =
          PamMessageStyle.Prompt_Echo_Off ∧
        (declineConv.prompt_blind (converseLoop declineConv () []).state
          [113]).2 = none)) ∧
    ((converse declineConv ()
        [PamMessage.mk PamMessageStyle.Prompt_Echo_On [113],
         PamMessage.mk PamMessageStyle.Text_Info [116]] true).retcode =
      PamReturnCode.Conv_Err ∧
    (converse declineConv ()
        [PamMessage.mk PamMessageStyle.Prompt_Echo_On [113],
         PamMessage.mk PamMessageStyle.Text_Info [116]] true).out_resp =
      none ∧
    (converse declineConv ()
        [PamMessage.mk PamMessageStyle.Prompt_Echo_On [113],
         PamMessage.mk PamMessageStyle.Text_Info [116]] true).calls =
      [HandlerCall.echo [113]]) :=
  ⟨rfl, Or.inl ⟨rfl, rfl⟩,
    converse_prompt_failure_stops declineConv () []
      (PamMessage.mk PamMessageStyle.Prompt_Echo_On [113])
      [PamMessage.mk PamMessageStyle.Text_Info [116]] rfl
      (Or.inl ⟨rfl, rfl⟩)⟩

/-- C3 as stated is false: the sequence `[Prompt_Echo_On "l", Error_Msg "e"]`
with the declining handler contains one `Error_Msg` message, yet the
handler's `error` notification is invoked zero times, not exactly once — the
first prompt fails and the loop breaks before the `Error_Msg` is reached
(the status is still `Conv_Err`). -/
theorem converse_error_msg_claim_cex :
    (([{ msg_style := PamMessageStyle.Prompt_Echo_On, msg := [108] },
       { msg_style := PamMessageStyle.Error_Msg, msg := [101] }] :
        List PamMessage).countP
      (fun m => m.msg_style == PamMessageStyle.Error_Msg)) = 1 ∧
    (converse declineConv ()
        [{ msg_style := PamMessageStyle.Prompt_Echo_On, msg := [108] },
         { msg_style := PamMessageStyle.Error_Msg, msg := [101] }]
        true).retcode = PamReturnCode.Conv_Err ∧
    ((converse declineConv ()
        [{ msg_style := PamMessageStyle.Prompt_Echo_On, msg := [108] },
         { msg_style := PamMessageStyle.Error_Msg, msg := [101] }]
        true).calls.filter isErrorCall).length = 0 := by
  decide

/-- C3 amended: for every sequence containing an `Error_Msg` message such
that the loop on the messages before it ends in `Success` (in particular the
handler succeeded on every earlier prompt), `converse` returns `Conv_Err`,
publishes nothing, the handler's `error` notification is invoked exactly once
and with that message's text, and no response slot is written for that
message: the slot at its index (and every later slot) stays
zero-initialised. -/
theorem converse_error_msg_reports (conv : Conversation σ) (s : σ)
    (pre : List PamMessage) (m : PamMessage) (post : List PamMessage)
    (hpre : (converseLoop conv s pre).result = PamReturnCode.Success)
    (hst : m.msg_style = PamMessageStyle.Error_Msg) :
    (converse conv s (pre ++ m :: post) true).retcode =
      PamReturnCode.Conv_Err ∧
    (converse conv s (pre ++ m :: post) true).out_resp = none ∧
    (converse conv s (pre ++ m :: post) true).calls =
      (converseLoop conv s pre).calls ++ [HandlerCall.err m.msg] ∧
    (converse conv s (pre ++ m :: post) true).calls.filter isErrorCall =
      [HandlerCall.err m.msg] ∧
    (converseLoop conv s (pre ++ m :: post)).slots =
      (converseLoop conv s pre).slots ++
        ({ resp := none } ::
          post.map (fun _ => ({ resp := none } : PamResponse))) ∧
    (converseLoop conv s pre).slots.length = pre.length := by
  have hstep :
      converseLoop conv (converseLoop conv s pre).state (m :: post) =
        { result := PamReturnCode.Conv_Err,
          slots := { resp := none } ::
            post.map (fun _ => ({ resp := none } : PamResponse)),
          state := conv.error (converseLoop conv s pre).state m.msg,
          calls := [HandlerCall.err m.msg], strdups := 0 } := by
    simp [converseLoop, hst]
  have happ := converseLoop_append conv s pre (m :: post) hpre
  rw [hstep] at happ
  have hnoerr := converseLoop_success_no_error_calls conv s pre hpre
  refine ⟨?_, ?_, ?_, ?_, ?_, converseLoop_slots_length conv s pre⟩ <;>
    simp [converse, happ, List.filter_append, hnoerr, isErrorCall]

/-- Witness for the amended `Error_Msg` claim: `PasswordConv` with login
`"a"`, one successful `Prompt_Echo_On` prompt before the `Error_Msg`, no
message after it. -/
theorem converse_error_msg_reports_witness :
    (converseLoop PasswordConv.conversation (PasswordConv.mk [97] [98])
        [PamMessage.mk PamMessageStyle.Prompt_Echo_On [108]]).result =
      PamReturnCode.Success ∧
    (PamMessage.mk PamMessageStyle.Error_Msg [101]).msg_style =
      PamMessageStyle.Error_Msg ∧
    ((converse PasswordConv.conversation (PasswordConv.mk [97] [98])
        [PamMessage.mk PamMessageStyle.Prompt_Echo_On [108],
         PamMessage.mk PamMessageStyle.Error_Msg [101]] true).retcode =
      PamReturnCode.Conv_Err ∧
    (converse PasswordConv.conversation (PasswordConv.mk [97] [98])
        [PamMessage.mk PamMessageStyle.Prompt_Echo_On [108],
         PamMessage.mk PamMessageStyle.Error_Msg [101]] true).out_resp =
      none ∧
    (converse PasswordConv.conversation (PasswordConv.mk [97] [98])
        [PamMessage.mk PamMessageStyle.Prompt_Echo_On [108],
         PamMessage.mk PamMessageStyle.Error_Msg [101]] true).calls =
      (converseLoop PasswordConv.conversation (PasswordConv.mk [97] [98])
        [PamMessage.mk PamMessageStyle.Prompt_Echo_On [108]]).calls ++
        [HandlerCall.err [101]] ∧
    (converse PasswordConv.conversation (PasswordConv.mk [97] [98])
        [PamMessage.mk PamMessageStyle.Prompt_Echo_On [108],
         PamMessage.mk PamMessageStyle.Error_Msg [101]]
        true).calls.filter isErrorCall = [HandlerCall.err [101]] ∧
    (converseLoop PasswordConv.conversation (PasswordConv.mk [97] [98])
        [PamMessage.mk PamMessageStyle.Prompt_Echo_On [108],
         PamMessage.mk PamMessageStyle.Error_Msg [101]]).slots =
      (converseLoop PasswordConv.conversation (PasswordConv.mk [97] [98])
        [PamMessage.mk PamMessageStyle.Prompt_Echo_On [108]]).slots ++
        ({ resp := none } ::
          ([] : List PamMessage).map
            (fun _ => ({ resp := none } : PamResponse))) ∧
    (converseLoop PasswordConv.conversation (PasswordConv.mk [97] [98])
        [PamMessage.mk PamMessageStyle.Prompt_Echo_On [108]]).slots.length =
      ([PamMessage.mk PamMessageStyle.Prompt_Echo_On [108]] :
        List PamMessage).length) :=
  ⟨by decide, rfl,
    converse_error_msg_reports PasswordConv.conversation
      (PasswordConv.mk [97] [98])
      [PamMessage.mk PamMessageStyle.Prompt_Echo_On [108]]
      (PamMessage.mk PamMessageStyle.Error_Msg [101]) [] (by decide) rfl⟩

/-- C4: for every run in which the allocation succeeds, every dispatched
prompt succeeds and no `Error_Msg` message occurs (`cleanRun`), `converse`
returns `Success` and publishes through the output pointer an array with
exactly one slot per message whose contents are as specified: a prompting
slot carries the text the handler returned for that message (`specSlots`
threads the handler state in message order and copies the prompt answers;
its `Text_Info` and `Error_Msg` slots are null by construction). -/
theorem converse_clean_success (conv : Conversation σ) (s : σ)
    (msgs : List PamMessage) (h : cleanRun conv s msgs = true) :
    (converse conv s msgs true).retcode = PamReturnCode.Success ∧
    (converse conv s msgs true).out_resp = some (specSlots conv s msgs) ∧
    (specSlots conv s msgs).length = msgs.length := by
  obtain ⟨h1, h2⟩ := converseLoop_clean conv s msgs h
  refine ⟨?_, ?_, specSlots_length conv s msgs⟩ <;>
    simp [converse, h1, h2]

/-- Witness for the success-path claim: `PasswordConv` with login `"u"` and
password `"p"` on the sequence `[Prompt_Echo_On, Text_Info,
Prompt_Echo_Off]`. -/
theorem converse_clean_success_witness :
    cleanRun PasswordConv.conversation (PasswordConv.mk [117] [112])
      [PamMessage.mk PamMessageStyle.Prompt_Echo_On [108],
       PamMessage.mk PamMessageStyle.Text_Info [105],
       PamMessage.mk PamMessageStyle.Prompt_Echo_Off [112]] = true ∧
    ((converse PasswordConv.conversation (PasswordConv.mk [117] [112])
        [PamMessage.mk PamMessageStyle.Prompt_Echo_On [108],
         PamMessage.mk PamMessageStyle.Text_Info [105],
         PamMessage.mk PamMessageStyle.Prompt_Echo_Off [112]]
        true).retcode = PamReturnCode.Success ∧
    (converse PasswordConv.conversation (PasswordConv.mk [117] [112])
        [PamMessage.mk PamMessageStyle.Prompt_Echo_On [108],
         PamMessage.mk PamMessageStyle.Text_Info [105],
         PamMessage.mk PamMessageStyle.Prompt_Echo_Off [112]]
        true).out_resp =
      some (specSlots PasswordConv.conversation (PasswordConv.mk [117] [112])
        [PamMessage.mk PamMessageStyle.Prompt_Echo_On [108],
         PamMessage.mk PamMessageStyle.Text_Info [105],
         PamMessage.mk PamMessageStyle.Prompt_Echo_Off [112]]) ∧
    (specSlots PasswordConv.conversation (PasswordConv.mk [117] [112])
        [PamMessage.mk PamMessageStyle.Prompt_Echo_On [108],
         PamMessage.mk PamMessageStyle.Text_Info [105],
         PamMessage.mk PamMessageStyle.Prompt_Echo_Off [112]]).length =
      ([PamMessage.mk PamMessageStyle.Prompt_Echo_On [108],
        PamMessage.mk PamMessageStyle.Text_Info [105],
        PamMessage.mk PamMessageStyle.Prompt_Echo_Off [112]] :
          List PamMessage).length) :=
  ⟨by decide,
    converse_clean_success PasswordConv.conversation
      (PasswordConv.mk [117] [112])
      [PamMessage.mk PamMessageStyle.Prompt_Echo_On [108],
       PamMessage.mk PamMessageStyle.Text_Info [105],
       PamMessage.mk PamMessageStyle.Prompt_Echo_Off [112]] (by decide)⟩

/-- C10: a freshly created `PasswordConv` holds empty login and password, and
on it both prompts succeed with the empty string for any question (an empty
string has no embedded NUL, so the failure case is unreachable). -/
theorem passwordConv_new_empty_succeeds (m : List Nat) :
    PasswordConv.new.login = [] ∧ PasswordConv.new.passwd = [] ∧
    PasswordConv.conversation.prompt_echo PasswordConv.new m =
      (PasswordConv.new, some []) ∧
    PasswordConv.conversation.prompt_blind PasswordConv.new m =
      (PasswordConv.new, some []) := by
  refine ⟨rfl, rfl, ?_, ?_⟩ <;>
    simp [PasswordConv.conversation, PasswordConv.new, cstringNew]

end Pam
